import Mathlib

/-!
Verification of the NexVault access-control and encryption core.

The definitions below are shallow embeddings of:
- `src/backend/src/utils/encryption.js` (AES-256-GCM helpers),
- the `NexVault` Solidity contract (`src/unnamed/part_007`, lines 230-427),
- `src/backend/src/config/blockchain.js` (`retryWithBackoff`, `rotateRpcEndpoint`),
- `src/backend/src/utils/blockchain.js` (`getAccessibleFileHashes`, second revision
  in the file, lines 457-922),
- the download controller (`src/backend/src/controllers/upload.controller.js`,
  second revision, lines 304-503) and `src/backend/src/routes/download.routes.js`.
-/

namespace NexVault

/-- Decidable equality for `Except` results (throw/return outcomes). -/
instance {ε α : Type} [DecidableEq ε] [DecidableEq α] : DecidableEq (Except ε α) := fun a b =>
  match a, b with
  | Except.ok x, Except.ok y => decidable_of_iff (x = y) (by simp)
  | Except.ok _, Except.error _ => isFalse (fun hc => Except.noConfusion hc)
  | Except.error _, Except.ok _ => isFalse (fun hc => Except.noConfusion hc)
  | Except.error x, Except.error y => decidable_of_iff (x = y) (by simp)

/-! ### Cipher module (src/backend/src/utils/encryption.js)

Buffers are lists of byte values.  `aes-256-gcm` is a counter-mode stream
cipher with a GHASH authentication tag: byte `i` of the plaintext is XORed
with byte `i` of the keystream derived from `(key, iv)`, and the tag is a
function of `(key, iv, ciphertext)`.  The node `crypto` primitive is modelled
by the pair of functions below; all theorems about `encryptBuffer` and
`decryptBuffer` are universally quantified over it, so they hold for the real
AES-256-GCM instantiation in particular. -/

abbrev Buf := List Nat

/-- The keystream/tag primitives of `aes-256-gcm` as used through
`crypto.createCipheriv` / `crypto.createDecipheriv`:
`keystream key iv i` is keystream byte `i`, `tagOf key iv ct` is the
128-bit authentication tag computed over the ciphertext. -/
structure GcmPrimitives where
  keystream : Buf → Buf → Nat → Nat
  tagOf : Buf → Buf → Buf → Buf

/-- Return shape of `encryptBuffer`: `{ ciphertext, iv, authTag }`. -/
structure EncryptedObject where
  ciphertext : Buf
  iv : Buf
  authTag : Buf
deriving DecidableEq

/-- Failures of the cipher module.  `authenticationError` is the
`decipher.final()` throw when the GCM tag does not verify (surfaced by
`decryptBuffer` as `Decryption failed: ...`). -/
inductive CryptoError where
  | authenticationError
deriving DecidableEq

/-- Counter-mode masking: byte at position `i` is XORed with keystream byte
`i`.  `cipher.update`/`cipher.final` apply exactly this stream to the whole
buffer (starting at position 0). -/
def ctrMask (P : GcmPrimitives) (key iv : Buf) : Nat → Buf → Buf
  | _, [] => []
  | i, b :: rest => (b ^^^ P.keystream key iv i) :: ctrMask P key iv (i + 1) rest

/-- `encryptBuffer(buffer, key)` from encryption.js.  The random 96-bit IV
generated by `crypto.randomBytes(12)` is passed explicitly. -/
def encryptBuffer (P : GcmPrimitives) (buffer key iv : Buf) : EncryptedObject :=
  let encrypted := ctrMask P key iv 0 buffer
  { ciphertext := encrypted, iv := iv, authTag := P.tagOf key iv encrypted }

/-- `decryptBuffer(ciphertext, key, iv, authTag)` from encryption.js:
`decipher.update` unmasks the ciphertext and `decipher.final()` throws
unless the supplied tag equals the tag of the ciphertext; the surrounding
`Buffer.concat` means no plaintext leaves the function on failure. -/
def decryptBuffer (P : GcmPrimitives) (ciphertext key iv authTag : Buf) :
    Except CryptoError Buf :=
  if authTag = P.tagOf key iv ciphertext then
    Except.ok (ctrMask P key iv 0 ciphertext)
  else
    Except.error CryptoError.authenticationError

/-- Flip bit `j` of byte `i` of a buffer (used to state the tamper-detection
property for tags differing in a single bit). -/
def flipBit (t : Buf) (i j : Nat) : Buf :=
  t.set i ((t.getD i 0) ^^^ 2 ^ j)

/-! ### The NexVault registry contract (src/unnamed/part_007, lines 249-427)

`bytes32` file hashes and `address` principals are natural numbers; the zero
address is `0`.  Solidity mappings are total functions returning the default
struct, exactly as `mapping(bytes32 => FileInfo)` does. -/

/-- `struct FileInfo { address owner; string s3Key; bool exists; mapping(address => bool) access; }`.
The `exists` flag is named `existsFlag` (`exists` is reserved in Lean). -/
structure FileInfo where
  owner : Nat
  s3Key : String
  existsFlag : Bool
  access : Nat → Bool

/-- Contract storage: `mapping(bytes32 => FileInfo) private files`. -/
structure ContractState where
  files : Nat → FileInfo

/-- The freshly deployed contract: every mapping entry is the default struct. -/
def initialState : ContractState :=
  ⟨fun _ => ⟨0, "", false, fun _ => false⟩⟩

/-- Revert reasons of the contract, one per `require` message:
`fileAlreadyExists` = "File already exists", `emptyS3Key` = "S3 key cannot be
empty", `fileNotFound` = "File not found", `notOwnerGrant` / `notOwnerRevoke`
= "Not authorized: only owner can grant/revoke access", `cannotRevokeOwner` =
the owner-self-revocation guard, `zeroAddressGrantee` = "Cannot grant access
to zero address". -/
inductive ContractError where
  | fileAlreadyExists
  | emptyS3Key
  | fileNotFound
  | notOwnerGrant
  | notOwnerRevoke
  | cannotRevokeOwner
  | zeroAddressGrantee
deriving DecidableEq

/-- `addFile(bytes32 fileHash, string s3Key)`: requires the hash to be fresh
and the key non-empty, then records owner, key, existence and the owner
automatic access bit. -/
def addFile (s : ContractState) (sender fileHash : Nat) (s3Key : String) :
    Except ContractError ContractState :=
  if (s.files fileHash).existsFlag then
    Except.error ContractError.fileAlreadyExists
  else if ¬ s3Key.length > 0 then
    Except.error ContractError.emptyS3Key
  else
    Except.ok ⟨fun h =>
      if h = fileHash then
        { owner := sender, s3Key := s3Key, existsFlag := true,
          access := fun a => if a = sender then true else false }
      else s.files h⟩

/-- `grantAccess(bytes32 fileHash, address grantee)`: requires existence,
ownership by the caller and a non-zero grantee, then sets the access bit. -/
def grantAccess (s : ContractState) (sender fileHash grantee : Nat) :
    Except ContractError ContractState :=
  if ¬ (s.files fileHash).existsFlag then
    Except.error ContractError.fileNotFound
  else if ¬ sender = (s.files fileHash).owner then
    Except.error ContractError.notOwnerGrant
  else if grantee = 0 then
    Except.error ContractError.zeroAddressGrantee
  else
    Except.ok ⟨fun h =>
      if h = fileHash then
        { s.files fileHash with
          access := fun a => if a = grantee then true else (s.files fileHash).access a }
      else s.files h⟩

/-- `revokeAccess(bytes32 fileHash, address revokee)`: requires existence,
ownership by the caller and that the revokee is not the owner, then clears
the access bit. -/
def revokeAccess (s : ContractState) (sender fileHash revokee : Nat) :
    Except ContractError ContractState :=
  if ¬ (s.files fileHash).existsFlag then
    Except.error ContractError.fileNotFound
  else if ¬ sender = (s.files fileHash).owner then
    Except.error ContractError.notOwnerRevoke
  else if revokee = (s.files fileHash).owner then
    Except.error ContractError.cannotRevokeOwner
  else
    Except.ok ⟨fun h =>
      if h = fileHash then
        { s.files fileHash with
          access := fun a => if a = revokee then false else (s.files fileHash).access a }
      else s.files h⟩

/-- `hasAccess(bytes32 fileHash, address who)`: a total boolean view that
returns `false` for an unknown hash and otherwise reads the access bit. -/
def hasAccess (s : ContractState) (fileHash who : Nat) : Bool :=
  if ¬ (s.files fileHash).existsFlag then false
  else (s.files fileHash).access who

/-- `fileExists(bytes32 fileHash)`. -/
def fileExists (s : ContractState) (fileHash : Nat) : Bool :=
  (s.files fileHash).existsFlag

/-- One external call to the contract, with its `msg.sender`. -/
inductive Call where
  | addFile (sender fileHash : Nat) (s3Key : String)
  | grantAccess (sender fileHash grantee : Nat)
  | revokeAccess (sender fileHash revokee : Nat)
deriving DecidableEq

/-- Execute one call; a revert leaves the storage unchanged. -/
def stepCall (s : ContractState) (c : Call) : ContractState :=
  match c with
  | Call.addFile sender h k =>
      match addFile s sender h k with
      | Except.ok s2 => s2
      | Except.error _ => s
  | Call.grantAccess sender h g =>
      match grantAccess s sender h g with
      | Except.ok s2 => s2
      | Except.error _ => s
  | Call.revokeAccess sender h r =>
      match revokeAccess s sender h r with
      | Except.ok s2 => s2
      | Except.error _ => s

/-- Execute a sequence of calls from a state. -/
def runCalls (s : ContractState) : List Call → ContractState
  | [] => s
  | c :: cs => runCalls (stepCall s c) cs

/-! ### RPC resilience layer (src/backend/src/config/blockchain.js)

`retryWithBackoff(fn, maxRetries = 5, baseDelay = 1000)` runs `fn` up to
`maxRetries` times; an error matching `isRateLimitError` on a non-final
attempt triggers a `sleep(baseDelay * 2^(attempt-1))`, a
`rotateRpcEndpoint()` and another attempt; any other error, or a final
attempt error, is rethrown unchanged.  The attempt outcomes are supplied as
a function of the (1-based) attempt number. -/

/-- A JavaScript error as inspected by `isRateLimitError`: its `message`
(the empty string standing for an absent message, on which every
`includes` test is false) and its `code`, which in ethers is either a
JSON-RPC number or a string tag such as `BAD_DATA`. -/
structure JsError where
  message : String
  numCode : Option Int
  strCode : Option String
deriving DecidableEq

/-- `pat` occurs as a prefix of `s` (character lists). -/
def charsPrefixOf : List Char → List Char → Bool
  | [], _ => true
  | _ :: _, [] => false
  | a :: as, b :: bs => a == b && charsPrefixOf as bs

/-- `pat` occurs contiguously inside `s` (character lists). -/
def charsInfixOf (pat : List Char) : List Char → Bool
  | [] => pat.isEmpty
  | b :: bs => charsPrefixOf pat (b :: bs) || charsInfixOf pat bs

/-- JavaScript `s.includes(pat)`. -/
def includes (s pat : String) : Bool :=
  charsInfixOf pat.toList s.toList

/-- The transient-error classifier of `retryWithBackoff` (blockchain.js,
lines 80-88): rate-limit messages, block-range messages, JSON-RPC codes
-32005 / -32701 / -32602 and the ethers `BAD_DATA` code. -/
def isRateLimitError (e : JsError) : Bool :=
  includes e.message "Too Many Requests" ||
  includes e.message "429" ||
  includes e.message "exceed maximum block range" ||
  includes e.message "limited to" ||
  e.numCode == some (-32005) ||
  e.numCode == some (-32701) ||
  e.numCode == some (-32602) ||
  e.strCode == some "BAD_DATA"

/-- Endpoint list shape: `SEPOLIA_RPC_ENDPOINTS.length`. -/
structure RpcConfig where
  numEndpoints : Nat
deriving DecidableEq

/-- The module-level `currentRpcIndex`. -/
structure RpcState where
  currentRpcIndex : Nat
deriving DecidableEq

/-- `rotateRpcEndpoint()`: advance the index modulo the endpoint count (the
provider/signer/contract are rebuilt for the new endpoint). -/
def rotateRpcEndpoint (cfg : RpcConfig) (st : RpcState) : RpcState :=
  ⟨(st.currentRpcIndex + 1) % cfg.numEndpoints⟩

/-- Observable outcome of `retryWithBackoff`: the returned/thrown value
(`none` models the `undefined` returned when the loop body never runs),
the final rotation state, the `sleep` durations in order, and how many
times `rotateRpcEndpoint` ran. -/
structure RetryOut (α : Type) where
  result : Option (Except JsError α)
  rpc : RpcState
  delays : List Nat
  rotations : Nat

instance {α : Type} [DecidableEq α] : DecidableEq (RetryOut α) := fun a b =>
  decidable_of_iff
    (a.result = b.result ∧ a.rpc = b.rpc ∧ a.delays = b.delays ∧ a.rotations = b.rotations)
    (by cases a; cases b; simp)

/-- The retry loop from attempt number `attempt` on (attempts are 1-based,
as in `for (let attempt = 1; attempt <= maxRetries; attempt++)`). -/
def retryAux {α : Type} (cfg : RpcConfig) (outcomes : Nat → Except JsError α)
    (maxRetries baseDelay attempt : Nat) (st : RpcState) : RetryOut α :=
  if h : attempt > maxRetries then ⟨none, st, [], 0⟩
  else
    match outcomes attempt with
    | Except.ok v => ⟨some (Except.ok v), st, [], 0⟩
    | Except.error e =>
      if isRateLimitError e = true ∧ attempt ≠ maxRetries then
        let r := retryAux cfg outcomes maxRetries baseDelay (attempt + 1)
          (rotateRpcEndpoint cfg st)
        ⟨r.result, r.rpc, baseDelay * 2 ^ (attempt - 1) :: r.delays, r.rotations + 1⟩
      else ⟨some (Except.error e), st, [], 0⟩
termination_by maxRetries + 1 - attempt
decreasing_by omega

/-- `retryWithBackoff(fn, maxRetries, baseDelay)` starting at attempt 1. -/
def retryWithBackoff {α : Type} (cfg : RpcConfig) (outcomes : Nat → Except JsError α)
    (maxRetries baseDelay : Nat) (st : RpcState) : RetryOut α :=
  retryAux cfg outcomes maxRetries baseDelay 1 st

/-! ### Access resolution engine
(`getAccessibleFileHashes`, src/backend/src/utils/blockchain.js lines 764-891)

File hashes and addresses appear here as the hex strings ethers hands back;
the function lowercases both the cache key and every collected hash.
Timestamps are milliseconds as from `Date.now()`. -/

/-- JavaScript `String.prototype.toLowerCase` on one character (ASCII range,
which covers the hex addresses and hashes this code lowercases). -/
def lowerChar (c : Char) : Char :=
  if 'A' ≤ c ∧ c ≤ 'Z' then Char.ofNat (c.toNat + 32) else c

/-- JavaScript `s.toLowerCase()`. -/
def jsToLower (s : String) : String := ⟨s.data.map lowerChar⟩

/-- One cache slot: `{ hashes, timestamp }` as stored in
`accessibleFilesCache`. -/
structure CacheEntry where
  hashes : List String
  timestamp : Nat

/-- `accessibleFilesCache`: a map from lowercased address to entry. -/
def Cache : Type := String → Option CacheEntry

/-- `CACHE_TTL = 5 * 60 * 1000`. -/
def CACHE_TTL : Nat := 5 * 60 * 1000

/-- `CHUNK_SIZE = 50000`. -/
def CHUNK_SIZE : Nat := 50000

/-- `MAX_RETRIES = 3` per-chunk query attempts. -/
def MAX_RETRIES : Nat := 3

/-- A contract event in the ledger history, with the block it occurred in.
`accessRevoked` is part of the history but `getAccessibleFileHashes` never
queries it. -/
inductive LedgerEvent where
  | accessGranted (fileHash grantee : String) (block : Nat)
  | fileAdded (fileHash owner : String) (block : Nat)
  | accessRevoked (fileHash revokee : String) (block : Nat)
deriving DecidableEq

/-- The remote world seen by one run of `getAccessibleFileHashes`:
the result of `provider.getBlockNumber()` (an error models both a provider
failure and the 5-second timeout race), the ledger event history served by
`queryFilter`, and which query round-trips fail (indexed by a global round
counter; one round is the `Promise.all` pair of `queryFilter` calls and
fails on an RPC error or the 10-second timeout race). -/
structure LedgerEnv where
  blockNumberResult : Except String Nat
  events : List LedgerEvent
  queryFails : Nat → Bool

/-- `AccessGranted(null, address)` events of a block range, lowercased in
processing order (ethers matches the indexed grantee topic; addresses are
compared in their normalized form). -/
def grantedHashes (env : LedgerEnv) (addr : String) (fromB toB : Nat) : List String :=
  env.events.filterMap fun e =>
    match e with
    | LedgerEvent.accessGranted fh g blk =>
        if g = addr ∧ fromB ≤ blk ∧ blk ≤ toB then some (jsToLower fh) else none
    | _ => none

/-- `FileAdded(null, address)` events of a block range (the owner has
automatic access), lowercased in processing order. -/
def addedHashes (env : LedgerEnv) (addr : String) (fromB toB : Nat) : List String :=
  env.events.filterMap fun e =>
    match e with
    | LedgerEvent.fileAdded fh o blk =>
        if o = addr ∧ fromB ≤ blk ∧ blk ≤ toB then some (jsToLower fh) else none
    | _ => none

/-- The hashes one successful chunk query contributes, in the order the two
`forEach` loops push them into the `Set`. -/
def chunkHashes (env : LedgerEnv) (addr : String) (fromB toB : Nat) : List String :=
  grantedHashes env addr fromB toB ++ addedHashes env addr fromB toB

/-- `Set.prototype.add`: append if not already present (JavaScript sets keep
first-insertion order, and `Array.from` reads them back in that order). -/
def addUnique (l : List String) (x : String) : List String :=
  if x ∈ l then l else l ++ [x]

/-- The block ranges the chunk loop visits:
`for (let fromBlock = START_BLOCK; fromBlock <= latestBlock; fromBlock += CHUNK_SIZE)`
with `toBlock = Math.min(fromBlock + CHUNK_SIZE - 1, latestBlock)`. -/
def chunkList (startBlock latest : Nat) : List (Nat × Nat) :=
  if startBlock > latest then []
  else
    (List.range ((latest - startBlock) / CHUNK_SIZE + 1)).map fun i =>
      (startBlock + i * CHUNK_SIZE,
       min (startBlock + i * CHUNK_SIZE + (CHUNK_SIZE - 1)) latest)

/-- The same chunk ranges written exactly as the source loop iterates them
(`chunkList_eq_loop` below proves the two agree; the closed form is the one
the rest of the model consumes because it evaluates inside the kernel). -/
def chunkLoop (latest : Nat) : Nat → List (Nat × Nat) := fun fromBlock =>
  if h : fromBlock > latest then []
  else
    (fromBlock, min (fromBlock + (CHUNK_SIZE - 1)) latest)
      :: chunkLoop latest (fromBlock + CHUNK_SIZE)
termination_by fromBlock => latest + 1 - fromBlock
decreasing_by simp only [CHUNK_SIZE]; omega

/-- The per-chunk retry loop (`while (!chunkSuccess && retryCount < MAX_RETRIES)`),
with `fuel` attempts left: a failing round rotates the RPC endpoint and
retries; success returns the chunk events.  Returns the collected hashes (or
`none` when the chunk is skipped), the next round index, the number of
`queryFilter` calls issued (two per round) and the number of rotations. -/
def tryChunk (env : LedgerEnv) (addr : String) (fromB toB round : Nat) :
    Nat → Option (List String) × Nat × Nat × Nat
  | 0 => (none, round, 0, 0)
  | fuel + 1 =>
    if env.queryFails round then
      let r := tryChunk env addr fromB toB (round + 1) fuel
      (r.1, r.2.1, r.2.2.1 + 2, r.2.2.2 + 1)
    else
      (some (chunkHashes env addr fromB toB), round + 1, 2, 0)

/-- The outer chunk loop: each chunk gets a fresh retry budget of
`MAX_RETRIES`; a skipped chunk contributes nothing; the hashes of a
successful chunk are added to the accumulated `Set`. -/
def scanChunks (env : LedgerEnv) (addr : String) :
    List (Nat × Nat) → Nat → List String → List String × Nat × Nat × Nat
  | [], round, acc => (acc, round, 0, 0)
  | (fromB, toB) :: rest, round, acc =>
    let c := tryChunk env addr fromB toB round MAX_RETRIES
    let acc1 := match c.1 with
      | some hs => hs.foldl addUnique acc
      | none => acc
    let r := scanChunks env addr rest c.2.1 acc1
    (r.1, r.2.1, c.2.2.1 + r.2.2.1, c.2.2.2 + r.2.2.2)

/-- Observable outcome of one `getAccessibleFileHashes` call: the value the
caller receives (always `Except.ok` in the source — the final `catch`
swallows every failure), the cache afterwards, how many ledger RPC calls
were issued and how many endpoint rotations happened. -/
structure ResolveOut where
  result : Except String (List String)
  cache : Cache
  ledgerCalls : Nat
  rotations : Nat

/-- The cache-miss path: `provider.getBlockNumber()` (one ledger call; its
failure is the only uncaught throw inside the `try` body, and the final
`catch` of the function turns it into a plain `[]` result without touching
the cache), then the bounded scan over the last 50000 blocks
(`START_BLOCK = Math.max(0, latestBlock - 50000)`), then
`accessibleFilesCache.set(cacheKey, { hashes, timestamp: now })`. -/
def resolveMiss (env : LedgerEnv) (cache : Cache) (now : Nat)
    (address cacheKey : String) : ResolveOut :=
  match env.blockNumberResult with
  | Except.error _ => ⟨Except.ok [], cache, 1, 0⟩
  | Except.ok latestBlock =>
    let startBlock := latestBlock - 50000
    let scan := scanChunks env address (chunkList startBlock latestBlock) 0 []
    let sets : Cache := fun k => if k = cacheKey then some ⟨scan.1, now⟩ else cache k
    ⟨Except.ok scan.1, sets, 1 + scan.2.2.1, scan.2.2.2⟩

/-- `getAccessibleFileHashes(address)`: return the cached hashes when the
entry is younger than `CACHE_TTL` (no ledger traffic at all), otherwise run
the scan.  The address reaches the event filters as passed in and the cache
key lowercased; this model keys both by the lowercased address (ethers
normalizes the indexed-topic address, so an already-normalized caller
address — the backend passes checksummed/lowercased wallet addresses —
matches the same events). -/
def getAccessibleFileHashes (env : LedgerEnv) (cache : Cache) (now : Nat)
    (address : String) : ResolveOut :=
  let cacheKey := jsToLower address
  match cache cacheKey with
  | some entry =>
    if now - entry.timestamp < CACHE_TTL then ⟨Except.ok entry.hashes, cache, 0, 0⟩
    else resolveMiss env cache now address cacheKey
  | none => resolveMiss env cache now address cacheKey

/-- Modelled from the spec: the strict re-verification mode of section 4.4
step 6 is absent from the source (`blockchain.js` lines 871-873 skip it:
the comment reads that verification is slow and the events are trusted);
the spec describes it as re-verifying each candidate with `hasAccess`
before returning. -/
def strictVerify (check : String → Bool) (candidates : List String) : List String :=
  candidates.filter check

/-! ### Download gate (`downloadFile`, upload.controller.js second revision,
lines 320-411) and server-side decrypt endpoint (`downloadAndDecrypt`,
lines 420-467; mounted without `authenticate` in download.routes.js). -/

/-- A Firestore `files` document as read by `downloadFile`: the blockchain
hash and the owning user id. -/
structure FileDoc where
  hash : String
  uid : String
deriving DecidableEq

/-- The external world seen by one `downloadFile` request: Firestore
availability, the `files` lookup by s3 key (`fileDocError` models the query
throwing), the `users` document lookup (`userDocError` models it throwing),
and the on-chain `hasFileAccess(fileHash, address)` read, whose `error`
case models any RPC failure. -/
structure GateEnv where
  firestoreAvailable : Bool
  fileDocError : Bool
  fileDocOf : String → Option FileDoc
  userDocError : Bool
  walletAddressesOf : String → List String
  hasFileAccessResult : String → String → Except String Bool

/-- Response of `downloadFile`. -/
inductive GateResponse where
  | badRequest
  | denied
  | allowedUrl (key : String)
deriving DecidableEq

/-- The access-verification `try` body of `downloadFile`:
`Except.ok true` means fall through to the presigned URL, `Except.ok false`
means the 403 return, `Except.error` means an exception escaped the body
(Firestore failures, or `db.collection(users).doc(null)` when no user is
attached).  Each per-address `hasFileAccess` call sits in its own inner
`try`/`catch` that only logs, so an RPC failure never escapes the loop. -/
def accessCheck (env : GateEnv) (user : Option String) (k : String) :
    Except String Bool :=
  if env.firestoreAvailable = false then Except.ok true
  else if env.fileDocError then Except.error "firestore query failed"
  else
    match env.fileDocOf k with
    | none => Except.ok true
    | some doc =>
      if user = some doc.uid then Except.ok true
      else
        match user with
        | none => Except.error "invalid document reference"
        | some u =>
          if env.userDocError then Except.error "users lookup failed"
          else
            let granted := (env.walletAddressesOf u).any fun a =>
              match env.hasFileAccessResult doc.hash a with
              | Except.ok b => b
              | Except.error _ => false
            if granted then Except.ok true else Except.ok false

/-- `downloadFile`: missing key is a 400; then the access verification runs
under a `catch` whose body is only a log — an exception there continues
with the download (the graceful-degradation comment at lines 380-383);
otherwise the verdict decides between the presigned URL and the 403. -/
def downloadFile (env : GateEnv) (user : Option String) (key : Option String) :
    GateResponse :=
  match key with
  | none => GateResponse.badRequest
  | some k =>
    let proceed : Bool :=
      match accessCheck env user k with
      | Except.ok b => b
      | Except.error _ => true
    if proceed then GateResponse.allowedUrl k else GateResponse.denied

/-- The body of a `POST /api/download/decrypt` request: the s3 key and the
base64-encoded AES key, IV and auth tag. -/
structure DecryptBody where
  key : Option String
  aesKey : Option String
  iv : Option String
  authTag : Option String
deriving DecidableEq

/-- A request to the decrypt endpoint: whatever principal identity the
transport carries (the route mounts no `authenticate` middleware, so the
handler sees it only through `req`), plus the body. -/
structure DecryptRequest where
  user : Option String
  body : DecryptBody

/-- The external world of `downloadAndDecrypt`: `downloadFromS3` and the
deterministic `Buffer.from(s, base64)` decoder. -/
structure DecryptEnv where
  s3Object : String → Except String Buf
  b64 : String → Buf

/-- Response of `downloadAndDecrypt`: 400 for missing parameters, 500 when
the S3 fetch or the decryption throws, or the decrypted bytes. -/
inductive DecryptResponse where
  | badRequest
  | serverError
  | fileBytes (data : Buf)
deriving DecidableEq

/-- JavaScript truthiness of an optional string field: absent, null and the
empty string are all falsy. -/
def jsTruthy : Option String → Bool
  | none => false
  | some s => !(s = "")

/-- `downloadAndDecrypt`: reject when any of the four parameters is falsy
(`if (!key || !aesKey || !iv || !authTag)`), fetch the ciphertext from S3,
decode the base64 parameters, decrypt, send the plaintext.  No access,
ownership or authentication check appears anywhere on this path. -/
def downloadAndDecrypt (P : GcmPrimitives) (env : DecryptEnv)
    (req : DecryptRequest) : DecryptResponse :=
  if !jsTruthy req.body.key || !jsTruthy req.body.aesKey ||
      !jsTruthy req.body.iv || !jsTruthy req.body.authTag then
    DecryptResponse.badRequest
  else
    match req.body.key, req.body.aesKey, req.body.iv, req.body.authTag with
    | some k, some ak, some ivs, some tg =>
      (match env.s3Object k with
       | Except.error _ => DecryptResponse.serverError
       | Except.ok encryptedBuffer =>
         match decryptBuffer P encryptedBuffer (env.b64 ak) (env.b64 ivs) (env.b64 tg) with
         | Except.error _ => DecryptResponse.serverError
         | Except.ok decrypted => DecryptResponse.fileBytes decrypted)
    | _, _, _, _ => DecryptResponse.badRequest

/-! ### Concrete fixtures used by witnesses and counterexamples. -/

/-- A small concrete instantiation of the cipher primitives (stands in for
AES-256-GCM when a theorem is evaluated at a point; every cipher theorem is
quantified over arbitrary primitives). -/
def demoGcm : GcmPrimitives where
  keystream := fun key iv i => (key.sum + iv.sum + i) % 256
  tagOf := fun key iv ct => [(key.sum + 3 * iv.sum + 7 * ct.sum) % 256]

/-- A rate-limit error as a public RPC endpoint produces it. -/
def rateLimitedErr : JsError := ⟨"Too Many Requests", none, none⟩

/-- The timeout error blockchain.js itself constructs
(`new Error(Query timeout)`, utils/blockchain.js line 821). -/
def queryTimeoutErr : JsError := ⟨"Query timeout", none, none⟩

/-- Attempt outcomes for the spec scenario: rate-limited on attempts 1 and
2, success on attempt 3. -/
def scenarioOutcomes : Nat → Except JsError Nat :=
  fun attempt => if attempt ≤ 2 then Except.error rateLimitedErr else Except.ok 7

/-- An empty `accessibleFilesCache`. -/
def emptyCache : Cache := fun _ => none

/-- Ledger history for the grant-grant-grant-revoke scenario: principal
`0xaaaa` is granted `0xh1`, `0xh2`, `0xh3`, then `0xh2` is revoked, all
inside the scan window of a chain at height 100. -/
def revokeScanEnv : LedgerEnv where
  blockNumberResult := Except.ok 100
  events := [LedgerEvent.accessGranted "0xh1" "0xaaaa" 11,
             LedgerEvent.accessGranted "0xh2" "0xaaaa" 12,
             LedgerEvent.accessGranted "0xh3" "0xaaaa" 13,
             LedgerEvent.accessRevoked "0xh2" "0xaaaa" 14]
  queryFails := fun _ => false

/-- The same scenario as a call trace against the registry contract: owner
`1` registers files `11`, `12`, `13` (the on-chain hashes of `0xh1`,
`0xh2`, `0xh3`), grants each to principal `2`, then revokes `12`. -/
def revokeTrace : List Call :=
  [Call.addFile 1 11 "h1.bin", Call.addFile 1 12 "h2.bin", Call.addFile 1 13 "h3.bin",
   Call.grantAccess 1 11 2, Call.grantAccess 1 12 2, Call.grantAccess 1 13 2,
   Call.revokeAccess 1 12 2]

/-- The on-chain hash behind each hex candidate of the scenario. -/
def scenarioHashNum (fh : String) : Nat :=
  if fh = "0xh1" then 11 else if fh = "0xh2" then 12 else if fh = "0xh3" then 13 else 0

/-- A world where every ledger RPC attempt fails: `getBlockNumber` times
out and every chunk query fails too. -/
def ledgerDownEnv : LedgerEnv where
  blockNumberResult := Except.error "getBlockNumber timeout"
  events := []
  queryFails := fun _ => true

/-- A download-gate world in which Firestore works, the requested key maps
to a file owned by `owner1` with wallet-checkable hash `0xh1`, the
requester `reader2` has one linked wallet, and every on-chain access check
fails (ledger unreachable). -/
def gateLedgerDownEnv : GateEnv where
  firestoreAvailable := true
  fileDocError := false
  fileDocOf := fun _ => some ⟨"0xh1", "owner1"⟩
  userDocError := false
  walletAddressesOf := fun _ => ["0xaaaa"]
  hasFileAccessResult := fun _ _ => Except.error "could not detect network"

/-! ## Theorems -/

/-- Applying the counter-mode keystream twice gives back the input
(XOR is an involution). -/
theorem ctrMask_ctrMask (P : GcmPrimitives) (key iv : Buf) :
    ∀ (i : Nat) (data : Buf), ctrMask P key iv i (ctrMask P key iv i data) = data := by
  intro i data
  induction data generalizing i with
  | nil => simp [ctrMask]
  | cons b rest ih =>
    simp [ctrMask, ih, Nat.xor_assoc, Nat.xor_self, Nat.xor_zero]

/-- C2: for every plaintext buffer, key and IV (and any cipher primitive
family, hence for AES-256-GCM), decrypting the ciphertext produced by
`encryptBuffer` with the iv and authTag it returned and the same key gives
back exactly the original plaintext. -/
theorem encrypt_decrypt_roundtrip (P : GcmPrimitives) (buffer key iv : Buf) :
    decryptBuffer P (encryptBuffer P buffer key iv).ciphertext key
      (encryptBuffer P buffer key iv).iv (encryptBuffer P buffer key iv).authTag
      = Except.ok buffer := by
  simp [encryptBuffer, decryptBuffer, ctrMask_ctrMask]

/-- XORing a nonzero power of two into a byte changes it. -/
theorem byte_flip_ne (b j : Nat) : b ^^^ 2 ^ j ≠ b := by
  intro hcontra
  have h2 : (b ^^^ 2 ^ j) ^^^ b = 0 := by rw [hcontra]; exact Nat.xor_self b
  rw [Nat.xor_comm b (2 ^ j), Nat.xor_assoc, Nat.xor_self, Nat.xor_zero] at h2
  exact pow_ne_zero j (by norm_num) h2

/-- Flipping one bit inside a buffer yields a different buffer. -/
theorem flipBit_ne (j : Nat) : ∀ (t : Buf) (i : Nat), i < t.length → flipBit t i j ≠ t := by
  intro t
  induction t with
  | nil => intro i hi; simp at hi
  | cons a l ih =>
    intro i hi
    cases i with
    | zero =>
      simp only [flipBit, List.set, List.getD, List.get?, Option.getD]
      intro hcontra
      exact byte_flip_ne a j (List.head_eq_of_cons_eq hcontra)
    | succ i =>
      have hstep : flipBit (a :: l) (i + 1) j = a :: flipBit l i j := rfl
      rw [hstep]
      intro hcontra
      exact ih i (by simpa using hi) (List.tail_eq_of_cons_eq hcontra)

/-- C3: whenever the supplied tag differs from the authentication tag of
the ciphertext — in particular when it is the correct tag with bit `j` of
byte `i` flipped — `decryptBuffer` fails with the authentication error and
returns no plaintext (the `Except.error` result carries no bytes). -/
theorem decrypt_rejects_bad_tag (P : GcmPrimitives) (ciphertext key iv tag : Buf)
    (i j : Nat) (hbad : tag ≠ P.tagOf key iv ciphertext) (hj : j < 8)
    (hi : i < (P.tagOf key iv ciphertext).length) :
    decryptBuffer P ciphertext key iv tag = Except.error CryptoError.authenticationError ∧
    decryptBuffer P ciphertext key iv (flipBit (P.tagOf key iv ciphertext) i j)
      = Except.error CryptoError.authenticationError := by
  refine ⟨by simp [decryptBuffer, hbad], ?_⟩
  have hne := flipBit_ne j (P.tagOf key iv ciphertext) i hi
  simp [decryptBuffer, hne]

/-- Witness for C3 at a concrete point: a wrong tag, and the correct tag
with its lowest bit flipped, are both rejected. -/
theorem decrypt_rejects_bad_tag_witness :
    (([99] : Buf) ≠ demoGcm.tagOf [1] [2] [5] ∧ (0 : Nat) < 8 ∧
      0 < (demoGcm.tagOf [1] [2] [5]).length) ∧
    (decryptBuffer demoGcm [5] [1] [2] [99]
        = Except.error CryptoError.authenticationError ∧
      decryptBuffer demoGcm [5] [1] [2] (flipBit (demoGcm.tagOf [1] [2] [5]) 0 0)
        = Except.error CryptoError.authenticationError) :=
  ⟨⟨by decide, by decide, by decide⟩,
    decrypt_rejects_bad_tag demoGcm [5] [1] [2] [99] 0 0 (by decide) (by decide) (by decide)⟩

/-- The contract invariant behind C4: every registered file grants its
recorded owner access. -/
def ownerAlwaysHasAccess (s : ContractState) : Prop :=
  ∀ h, (s.files h).existsFlag = true → (s.files h).access ((s.files h).owner) = true

/-- Every single external call — reverting or not — preserves the owner
access invariant. -/
theorem stepCall_preserves_ownerAccess (s : ContractState) (c : Call)
    (hs : ownerAlwaysHasAccess s) : ownerAlwaysHasAccess (stepCall s c) := by
  cases c with
  | addFile sender fh k =>
    cases haf : addFile s sender fh k with
    | error e => simpa only [stepCall, haf] using hs
    | ok s2 =>
      simp only [stepCall, haf]
      unfold addFile at haf
      split at haf
      · exact absurd haf (by simp)
      · split at haf
        · exact absurd haf (by simp)
        · injection haf with h2
          subst h2
          intro h hex
          by_cases hh : h = fh
          · subst hh; simp
          · simp only [hh, if_false] at hex ⊢
            exact hs h hex
  | grantAccess sender fh g =>
    cases haf : grantAccess s sender fh g with
    | error e => simpa only [stepCall, haf] using hs
    | ok s2 =>
      simp only [stepCall, haf]
      unfold grantAccess at haf
      split at haf
      · exact absurd haf (by simp)
      · split at haf
        · exact absurd haf (by simp)
        · split at haf
          · exact absurd haf (by simp)
          · injection haf with h2
            subst h2
            intro h hex
            rename_i hexists _ _
            by_cases hh : h = fh
            · subst hh
              simp at hex ⊢
              exact Or.inr (hs h (by simpa using hexists))
            · simp only [hh, if_false] at hex ⊢
              exact hs h hex
  | revokeAccess sender fh r =>
    cases haf : revokeAccess s sender fh r with
    | error e => simpa only [stepCall, haf] using hs
    | ok s2 =>
      simp only [stepCall, haf]
      unfold revokeAccess at haf
      split at haf
      · exact absurd haf (by simp)
      · split at haf
        · exact absurd haf (by simp)
        · split at haf
          · exact absurd haf (by simp)
          · injection haf with h2
            subst h2
            intro h hex
            rename_i hexists _ hnotowner
            by_cases hh : h = fh
            · subst hh
              simp at hex ⊢
              exact ⟨fun hc => hnotowner hc.symm, hs h (by simpa using hexists)⟩
            · simp only [hh, if_false] at hex ⊢
              exact hs h hex

/-- The invariant holds after any call sequence from any state satisfying
it. -/
theorem runCalls_ownerAccess (cs : List Call) :
    ∀ s : ContractState, ownerAlwaysHasAccess s → ownerAlwaysHasAccess (runCalls s cs) := by
  induction cs with
  | nil => intro s hs; exact hs
  | cons c cs ih =>
    intro s hs
    exact ih (stepCall s c) (stepCall_preserves_ownerAccess s c hs)

/-- C4: in every state reachable from deployment, a registered file hash
grants its recorded owner access; every `revokeAccess` naming the owner as
revokee reverts (whoever calls it), and when the owner itself calls, the
revert reason is the cannot-revoke-owner guard — so no call sequence can
strip an owner of access. -/
theorem owner_access_irrevocable (cs : List Call) (h : Nat)
    (hreg : ((runCalls initialState cs).files h).existsFlag = true) :
    hasAccess (runCalls initialState cs) h ((runCalls initialState cs).files h).owner = true ∧
    (∀ sender, ∃ e, revokeAccess (runCalls initialState cs) sender h
        ((runCalls initialState cs).files h).owner = Except.error e) ∧
    revokeAccess (runCalls initialState cs) ((runCalls initialState cs).files h).owner h
        ((runCalls initialState cs).files h).owner
      = Except.error ContractError.cannotRevokeOwner := by
  have hinv : ownerAlwaysHasAccess (runCalls initialState cs) :=
    runCalls_ownerAccess cs initialState (by intro x hx; simp [initialState] at hx)
  refine ⟨?_, ?_, ?_⟩
  · simp [hasAccess, hreg, hinv h hreg]
  · intro sender
    by_cases ho : sender = ((runCalls initialState cs).files h).owner
    · exact ⟨ContractError.cannotRevokeOwner, by simp [revokeAccess, hreg, ho]⟩
    · exact ⟨ContractError.notOwnerRevoke, by simp [revokeAccess, hreg, ho]⟩
  · simp [revokeAccess, hreg]

/-- Trace for the C4 witness: account 1 registers file 5. -/
theorem owner_access_irrevocable_witness :
    (((runCalls initialState [Call.addFile 1 5 "file.txt"]).files 5).existsFlag = true) ∧
    (hasAccess (runCalls initialState [Call.addFile 1 5 "file.txt"]) 5
        ((runCalls initialState [Call.addFile 1 5 "file.txt"]).files 5).owner = true ∧
      (∀ sender, ∃ e, revokeAccess (runCalls initialState [Call.addFile 1 5 "file.txt"]) sender 5
          ((runCalls initialState [Call.addFile 1 5 "file.txt"]).files 5).owner
            = Except.error e) ∧
      revokeAccess (runCalls initialState [Call.addFile 1 5 "file.txt"])
          ((runCalls initialState [Call.addFile 1 5 "file.txt"]).files 5).owner 5
          ((runCalls initialState [Call.addFile 1 5 "file.txt"]).files 5).owner
        = Except.error ContractError.cannotRevokeOwner) :=
  ⟨by decide, owner_access_irrevocable [Call.addFile 1 5 "file.txt"] 5 (by decide)⟩

/-- C5: registering a fresh hash with a non-empty pointer succeeds, gives
the caller access, makes every second registration of the same hash revert
with the duplicate-file guard while leaving the storage unchanged, and
registering any fresh hash with an empty pointer reverts with the
empty-pointer guard. -/
theorem registerFile_semantics (s : ContractState) (sender h : Nat) (p : String)
    (hfresh : (s.files h).existsFlag = false) (hp : p.length > 0) :
    ∃ s2, addFile s sender h p = Except.ok s2 ∧
      hasAccess s2 h sender = true ∧
      (∀ sender2 p2,
        addFile s2 sender2 h p2 = Except.error ContractError.fileAlreadyExists ∧
        stepCall s2 (Call.addFile sender2 h p2) = s2) ∧
      (∀ sender3 h3, (s.files h3).existsFlag = false →
        addFile s sender3 h3 "" = Except.error ContractError.emptyS3Key) := by
  refine ⟨⟨fun h2 => if h2 = h then
      { owner := sender, s3Key := p, existsFlag := true,
        access := fun a => if a = sender then true else false }
    else s.files h2⟩, ?_, ?_, ?_, ?_⟩
  · simp [addFile, hfresh, hp]
  · simp [hasAccess]
  · intro sender2 p2
    constructor
    · simp [addFile]
    · simp [stepCall, addFile]
  · intro sender3 h3 hfresh3
    simp [addFile, hfresh3]

/-- Witness for C5: account 1 registers hash 5 with pointer `k` in the
freshly deployed contract. -/
theorem registerFile_semantics_witness :
    ((initialState.files 5).existsFlag = false ∧ "k".length > 0) ∧
    (∃ s2, addFile initialState 1 5 "k" = Except.ok s2 ∧
      hasAccess s2 5 1 = true ∧
      (∀ sender2 p2,
        addFile s2 sender2 5 p2 = Except.error ContractError.fileAlreadyExists ∧
        stepCall s2 (Call.addFile sender2 5 p2) = s2) ∧
      (∀ sender3 h3, (initialState.files h3).existsFlag = false →
        addFile initialState sender3 h3 "" = Except.error ContractError.emptyS3Key)) :=
  ⟨⟨by decide, by decide⟩, registerFile_semantics initialState 1 5 "k" (by decide) (by decide)⟩

/-- A hash never passed to `addFile` keeps its default (non-existent)
record through any call sequence. -/
theorem existsFlag_stable (h : Nat) : ∀ (cs : List Call) (s : ContractState),
    (s.files h).existsFlag = false →
    (∀ sender k, Call.addFile sender h k ∉ cs) →
    ((runCalls s cs).files h).existsFlag = false := by
  intro cs
  induction cs with
  | nil => intro s hy _; exact hy
  | cons c cs ih =>
    intro s hy hnever
    have hnever2 : ∀ sender k, Call.addFile sender h k ∉ cs := by
      intro sender k hmem
      exact hnever sender k (List.mem_cons_of_mem c hmem)
    refine ih (stepCall s c) ?_ hnever2
    cases c with
    | addFile sender fh k =>
      have hfh : fh ≠ h := by
        intro hc
        subst hc
        exact hnever sender k (List.mem_cons_self _ _)
      cases haf : addFile s sender fh k with
      | error e => simpa only [stepCall, haf] using hy
      | ok s2 =>
        simp only [stepCall, haf]
        unfold addFile at haf
        split at haf
        · exact absurd haf (by simp)
        · split at haf
          · exact absurd haf (by simp)
          · injection haf with h2
            subst h2
            simpa only [hfh.symm, if_false] using hy
    | grantAccess sender fh g =>
      cases haf : grantAccess s sender fh g with
      | error e => simpa only [stepCall, haf] using hy
      | ok s2 =>
        simp only [stepCall, haf]
        unfold grantAccess at haf
        split at haf
        · exact absurd haf (by simp)
        · split at haf
          · exact absurd haf (by simp)
          · split at haf
            · exact absurd haf (by simp)
            · injection haf with h2
              subst h2
              by_cases hh : h = fh
              · rename_i hexists _ _
                subst hh
                exact absurd hy (by simpa using hexists)
              · simpa only [hh, if_false] using hy
    | revokeAccess sender fh r =>
      cases haf : revokeAccess s sender fh r with
      | error e => simpa only [stepCall, haf] using hy
      | ok s2 =>
        simp only [stepCall, haf]
        unfold revokeAccess at haf
        split at haf
        · exact absurd haf (by simp)
        · split at haf
          · exact absurd haf (by simp)
          · split at haf
            · exact absurd haf (by simp)
            · injection haf with h2
              subst h2
              by_cases hh : h = fh
              · rename_i hexists _ _
                subst hh
                exact absurd hy (by simpa using hexists)
              · simpa only [hh, if_false] using hy

/-- C6: for a hash never registered along the reachable history,
`hasAccess` answers `false` for every principal — and it is a total
boolean view, so the answer is an ordinary value, never an error. -/
theorem hasAccess_unregistered_false (cs : List Call) (h p : Nat)
    (hnever : ∀ sender k, Call.addFile sender h k ∉ cs) :
    hasAccess (runCalls initialState cs) h p = false := by
  have hex := existsFlag_stable h cs initialState (by simp [initialState]) hnever
  simp [hasAccess, hex]

/-- Witness for C6: hash 7 was never registered in a history that touched
hash 5 only. -/
theorem hasAccess_unregistered_false_witness :
    (∀ sender k,
      Call.addFile sender 7 k ∉ [Call.addFile 1 5 "k", Call.grantAccess 1 5 2]) ∧
    hasAccess (runCalls initialState [Call.addFile 1 5 "k", Call.grantAccess 1 5 2]) 7 3
      = false :=
  ⟨by intro sender k hmem; simp at hmem,
    hasAccess_unregistered_false [Call.addFile 1 5 "k", Call.grantAccess 1 5 2] 7 3
      (by intro sender k hmem; simp at hmem)⟩

/-- C7 (amended): `retryWithBackoff` behavior on any live attempt
`1 ≤ attempt ≤ maxRetries`: a successful call returns its result untouched;
an error outside the `isRateLimitError` class (which covers rate-limit and
block-range messages and the JSON-RPC / `BAD_DATA` codes, but not
timeouts) propagates unchanged with no delay and no rotation; an error on
the final attempt propagates unchanged; a classified error on a non-final
attempt sleeps `baseDelay * 2 ^ (attempt - 1)`, rotates the endpoint
pointer once and retries; and in the two-rate-limits-then-success scenario
the call returns the success and the pointer has rotated exactly twice. -/
theorem retry_behavior {α : Type} (cfg : RpcConfig) (outcomes : Nat → Except JsError α)
    (maxRetries baseDelay attempt : Nat) (st : RpcState) (e : JsError) (v : α)
    (hone : 1 ≤ attempt) (hle : attempt ≤ maxRetries) :
    (outcomes attempt = Except.ok v →
      retryAux cfg outcomes maxRetries baseDelay attempt st
        = ⟨some (Except.ok v), st, [], 0⟩) ∧
    (outcomes attempt = Except.error e → isRateLimitError e = false →
      retryAux cfg outcomes maxRetries baseDelay attempt st
        = ⟨some (Except.error e), st, [], 0⟩) ∧
    (outcomes maxRetries = Except.error e →
      retryAux cfg outcomes maxRetries baseDelay maxRetries st
        = ⟨some (Except.error e), st, [], 0⟩) ∧
    (outcomes attempt = Except.error e → isRateLimitError e = true →
      attempt < maxRetries →
      retryAux cfg outcomes maxRetries baseDelay attempt st =
        ⟨(retryAux cfg outcomes maxRetries baseDelay (attempt + 1)
            (rotateRpcEndpoint cfg st)).result,
         (retryAux cfg outcomes maxRetries baseDelay (attempt + 1)
            (rotateRpcEndpoint cfg st)).rpc,
         baseDelay * 2 ^ (attempt - 1) ::
           (retryAux cfg outcomes maxRetries baseDelay (attempt + 1)
             (rotateRpcEndpoint cfg st)).delays,
         (retryAux cfg outcomes maxRetries baseDelay (attempt + 1)
            (rotateRpcEndpoint cfg st)).rotations + 1⟩) ∧
    (outcomes 1 = Except.error e → outcomes 2 = Except.error e →
      outcomes 3 = Except.ok v → isRateLimitError e = true →
      retryWithBackoff cfg outcomes 5 baseDelay st =
        ⟨some (Except.ok v), rotateRpcEndpoint cfg (rotateRpcEndpoint cfg st),
         [baseDelay * 2 ^ 0, baseDelay * 2 ^ 1], 2⟩) := by
  have hng : ¬ attempt > maxRetries := by omega
  refine ⟨?_, ?_, ?_, ?_, ?_⟩
  · intro hok
    rw [retryAux]
    simp [hng, hok]
  · intro herr hperm
    rw [retryAux]
    simp [hng, herr, hperm]
  · intro herr
    rw [retryAux]
    simp [show ¬ maxRetries > maxRetries from by omega, herr]
  · intro herr htrans hlt
    have hne : attempt ≠ maxRetries := Nat.ne_of_lt hlt
    rw [retryAux]
    simp [hng, herr, htrans, hne]
  · intro o1 o2 o3 htrans
    have s3 : retryAux cfg outcomes 5 baseDelay 3
        (rotateRpcEndpoint cfg (rotateRpcEndpoint cfg st))
        = ⟨some (Except.ok v), rotateRpcEndpoint cfg (rotateRpcEndpoint cfg st), [], 0⟩ := by
      rw [retryAux]
      simp [show ¬ (3 : Nat) > 5 from by omega, o3]
    have s2 : retryAux cfg outcomes 5 baseDelay 2 (rotateRpcEndpoint cfg st)
        = ⟨some (Except.ok v), rotateRpcEndpoint cfg (rotateRpcEndpoint cfg st),
           [baseDelay * 2 ^ 1], 1⟩ := by
      rw [retryAux]
      simp [show ¬ (2 : Nat) > 5 from by omega, o2, htrans,
        show (2 : Nat) ≠ 5 from by omega, s3]
    have s1 : retryAux cfg outcomes 5 baseDelay 1 st
        = ⟨some (Except.ok v), rotateRpcEndpoint cfg (rotateRpcEndpoint cfg st),
           [baseDelay * 2 ^ 0, baseDelay * 2 ^ 1], 2⟩ := by
      rw [retryAux]
      simp [show ¬ (1 : Nat) > 5 from by omega, o1, htrans,
        show (1 : Nat) ≠ 5 from by omega, s2]
    simpa [retryWithBackoff] using s1

/-- Witness for C7 (amended) at the scenario inputs: five endpoints,
rate-limited attempts 1 and 2, success on attempt 3. -/
theorem retry_behavior_witness :
    ((1 : Nat) ≤ 1 ∧ (1 : Nat) ≤ 5) ∧
    retryWithBackoff ⟨5⟩ scenarioOutcomes 5 1000 ⟨0⟩ =
      ⟨some (Except.ok 7), rotateRpcEndpoint ⟨5⟩ (rotateRpcEndpoint ⟨5⟩ ⟨0⟩),
       [1000 * 2 ^ 0, 1000 * 2 ^ 1], 2⟩ :=
  ⟨⟨by decide, by decide⟩,
    (retry_behavior ⟨5⟩ scenarioOutcomes 5 1000 1 ⟨0⟩ rateLimitedErr 7
        (by decide) (by decide)).2.2.2.2
      (by decide) (by decide) (by decide) (by decide)⟩

/-- C7 counterexample: a timeout — here the very error object
blockchain.js itself constructs for a hung query — is NOT classified as
transient: `retryWithBackoff` propagates it unchanged from attempt 1 of 5,
with no backoff delay and no endpoint rotation, where the claim says a
timeout is transient and would be retried with rotation. -/
theorem timeout_classified_permanent :
    isRateLimitError queryTimeoutErr = false ∧
    retryWithBackoff ⟨5⟩ (fun _ => (Except.error queryTimeoutErr : Except JsError Nat))
        5 1000 ⟨0⟩
      = ⟨some (Except.error queryTimeoutErr), ⟨0⟩, [], 0⟩ := by
  constructor
  · decide
  · rw [retryWithBackoff, retryAux]
    simp [show ¬ (1 : Nat) > 5 from by omega,
      show isRateLimitError queryTimeoutErr = false from by decide]

/-- The closed-form chunk ranges are exactly the ones the source loop
visits. -/
theorem chunkList_eq_loop (startBlock latest : Nat) :
    chunkList startBlock latest = chunkLoop latest startBlock := by
  rw [chunkLoop]
  by_cases hsl : startBlock > latest
  · simp [chunkList, hsl]
  · simp only [hsl, dite_false]
    rw [chunkList, if_neg hsl, List.range_succ_eq_map, List.map_cons, List.map_map]
    congr 1
    by_cases hC : startBlock + CHUNK_SIZE > latest
    · have hdiv : (latest - startBlock) / CHUNK_SIZE = 0 := by
        simp only [CHUNK_SIZE] at hC ⊢
        omega
      have hstop : chunkLoop latest (startBlock + CHUNK_SIZE) = [] := by
        rw [chunkLoop]
        simp [hC]
      rw [hdiv, hstop]
      simp
    · have hdiv : (latest - startBlock) / CHUNK_SIZE
          = (latest - (startBlock + CHUNK_SIZE)) / CHUNK_SIZE + 1 := by
        simp only [CHUNK_SIZE] at hC ⊢
        omega
      rw [hdiv, ← chunkList_eq_loop (startBlock + CHUNK_SIZE) latest,
        chunkList, if_neg (by omega)]
      apply List.map_congr_left
      intro i _
      simp only [Function.comp]
      have harith : startBlock + i.succ * CHUNK_SIZE
          = startBlock + CHUNK_SIZE + i * CHUNK_SIZE := by
        simp only [CHUNK_SIZE]
        omega
      rw [harith]
termination_by latest + 1 - startBlock
decreasing_by simp only [CHUNK_SIZE]; omega

/-- Shape of the cache-miss path when `getBlockNumber` answers: the scan
result is returned and stored under the cache key with the current
timestamp. -/
theorem resolveMiss_ok (env : LedgerEnv) (cache : Cache) (now : Nat)
    (addr ck : String) (n : Nat) (hb : env.blockNumberResult = Except.ok n) :
    resolveMiss env cache now addr ck =
      ⟨Except.ok (scanChunks env addr (chunkList (n - 50000) n) 0 []).1,
       fun k => if k = ck then
           some ⟨(scanChunks env addr (chunkList (n - 50000) n) 0 []).1, now⟩
         else cache k,
       1 + (scanChunks env addr (chunkList (n - 50000) n) 0 []).2.2.1,
       (scanChunks env addr (chunkList (n - 50000) n) 0 []).2.2.2⟩ := by
  simp only [resolveMiss, hb]

/-- Shape of the cache-hit path: a young entry is returned as is, with no
ledger traffic and no cache write. -/
theorem resolve_hit (env : LedgerEnv) (cache : Cache) (now : Nat) (addr : String)
    (entry : CacheEntry) (hhit : cache (jsToLower addr) = some entry)
    (httl : now - entry.timestamp < CACHE_TTL) :
    getAccessibleFileHashes env cache now addr = ⟨Except.ok entry.hashes, cache, 0, 0⟩ := by
  simp only [getAccessibleFileHashes, hhit]
  rw [if_pos httl]

set_option maxRecDepth 2000 in
/-- C8: after a successful cache-cold resolution at time `t0`, a second
call for the same principal within the TTL returns exactly the cached
hash list, leaves the cache untouched and issues zero ledger calls and
zero rotations — whatever the ledger world looks like by then (`env2` is
arbitrary, so no ledger I/O can even influence the answer). -/
theorem resolve_cached_within_ttl (env env2 : LedgerEnv) (cache : Cache)
    (t0 t1 : Nat) (addr : String) (n : Nat)
    (hmiss : cache (jsToLower addr) = none)
    (hblock : env.blockNumberResult = Except.ok n)
    (httl : t1 - t0 < CACHE_TTL) :
    ∃ r : List String,
      (getAccessibleFileHashes env cache t0 addr).result = Except.ok r ∧
      getAccessibleFileHashes env2 (getAccessibleFileHashes env cache t0 addr).cache t1 addr
        = ⟨Except.ok r, (getAccessibleFileHashes env cache t0 addr).cache, 0, 0⟩ := by
  have h1 : getAccessibleFileHashes env cache t0 addr =
      ⟨Except.ok (scanChunks env addr (chunkList (n - 50000) n) 0 []).1,
       fun k => if k = jsToLower addr then
           some ⟨(scanChunks env addr (chunkList (n - 50000) n) 0 []).1, t0⟩
         else cache k,
       1 + (scanChunks env addr (chunkList (n - 50000) n) 0 []).2.2.1,
       (scanChunks env addr (chunkList (n - 50000) n) 0 []).2.2.2⟩ := by
    simp only [getAccessibleFileHashes, hmiss]
    exact resolveMiss_ok env cache t0 addr (jsToLower addr) n hblock
  obtain ⟨SC, hSC⟩ : ∃ SC, scanChunks env addr (chunkList (n - 50000) n) 0 [] = SC :=
    ⟨_, rfl⟩
  rw [hSC] at h1
  refine ⟨SC.1, by rw [h1], ?_⟩
  rw [h1]
  simp only [getAccessibleFileHashes, if_true]
  rw [if_pos httl]

/-- Witness for C8: a one-grant world resolved cold at time 0 and again at
time 1, with a dead ledger on the second call. -/
theorem resolve_cached_within_ttl_witness :
    (emptyCache (jsToLower "0xaaaa") = none ∧
      revokeScanEnv.blockNumberResult = Except.ok 100 ∧ (1 : Nat) - 0 < CACHE_TTL) ∧
    (∃ r : List String,
      (getAccessibleFileHashes revokeScanEnv emptyCache 0 "0xaaaa").result = Except.ok r ∧
      getAccessibleFileHashes ledgerDownEnv
          (getAccessibleFileHashes revokeScanEnv emptyCache 0 "0xaaaa").cache 1 "0xaaaa"
        = ⟨Except.ok r,
           (getAccessibleFileHashes revokeScanEnv emptyCache 0 "0xaaaa").cache, 0, 0⟩) :=
  ⟨⟨rfl, rfl, by decide⟩,
    resolve_cached_within_ttl revokeScanEnv ledgerDownEnv emptyCache 0 1 "0xaaaa" 100
      rfl rfl (by decide)⟩

/-- C9 counterexample: in the grant-grant-grant-revoke history, a
cache-cold `getAccessibleFileHashes` returns all three hashes — the
revoked `0xh2` included — because the source skips the `hasAccess`
re-verification and trusts the event union; the claimed result `{h1, h3}`
is therefore not what the code computes. -/
theorem resolve_reports_revoked_file :
    (getAccessibleFileHashes revokeScanEnv emptyCache 1000 "0xaaaa").result
        = Except.ok ["0xh1", "0xh2", "0xh3"] ∧
    "0xh2" ∈ ["0xh1", "0xh2", "0xh3"] := by
  constructor
  · decide
  · decide

/-- C9 (amended): the shipped eventual-consistency mode returns the full
event union `{h1, h2, h3}` for the scenario, with the revoked `h2` still
reported; re-verifying each candidate against the registry (the strict
mode the spec describes, absent from the source) filters it down to
exactly `{h1, h3}`. -/
theorem resolve_eventual_vs_strict :
    (getAccessibleFileHashes revokeScanEnv emptyCache 1000 "0xaaaa").result
        = Except.ok ["0xh1", "0xh2", "0xh3"] ∧
    hasAccess (runCalls initialState revokeTrace) (scenarioHashNum "0xh2") 2 = false ∧
    strictVerify
        (fun fh => hasAccess (runCalls initialState revokeTrace) (scenarioHashNum fh) 2)
        ["0xh1", "0xh2", "0xh3"]
      = ["0xh1", "0xh3"] := by
  refine ⟨by decide, by decide, by decide⟩

/-- C1 counterexample: with every RPC attempt failing (already
`getBlockNumber` is unreachable), `getAccessibleFileHashes` returns the
empty list as a perfectly normal `Except.ok` answer — its final `catch`
logs and returns `[]` — instead of surfacing any resolution-unavailable
error.  The cache is untouched and exactly the one failed ledger call was
attempted. -/
theorem resolution_unavailable_returns_empty :
    getAccessibleFileHashes ledgerDownEnv emptyCache 0 "0xaaaa"
      = ⟨Except.ok [], emptyCache, 1, 0⟩ := rfl

/-- C1 (amended): when no ledger RPC endpoint is reachable, resolution
returns `[]` as a normal answer (fail-soft, not a surfaced
`ResolutionUnavailable` error), and the download gate still answers Deny
for a request it actually checks: a non-owner whose every per-wallet
on-chain access check fails gets the 403 (the per-address `catch` inside
the loop means ledger unavailability can only flip the verdict toward
Deny, never toward Allow). -/
theorem resolution_failure_soft_and_gate_denies
    (env : LedgerEnv) (cache : Cache) (now : Nat) (addr msg : String)
    (genv : GateEnv) (u k : String) (doc : FileDoc)
    (hcold : cache (jsToLower addr) = none)
    (hdown : env.blockNumberResult = Except.error msg)
    (hfa : genv.firestoreAvailable = true)
    (hfe : genv.fileDocError = false)
    (hdoc : genv.fileDocOf k = some doc)
    (hue : genv.userDocError = false)
    (hno : u ≠ doc.uid)
    (hrpc : ∀ a ∈ genv.walletAddressesOf u,
        (genv.hasFileAccessResult doc.hash a).toOption = none) :
    getAccessibleFileHashes env cache now addr = ⟨Except.ok [], cache, 1, 0⟩ ∧
    downloadFile genv (some u) (some k) = GateResponse.denied := by
  constructor
  · simp only [getAccessibleFileHashes, hcold, resolveMiss, hdown]
  · have hany : (genv.walletAddressesOf u).any (fun a =>
        match genv.hasFileAccessResult doc.hash a with
        | Except.ok b => b
        | Except.error _ => false) = false := by
      rw [List.any_eq_false]
      intro a ha
      have hta := hrpc a ha
      cases hres : genv.hasFileAccessResult doc.hash a with
      | ok b =>
        rw [hres] at hta
        simp [Except.toOption] at hta
      | error e => simp [hres]
    have hcheck : accessCheck genv (some u) k = Except.ok false := by
      simp only [accessCheck, hfa, hfe, hdoc, hue, hany]
      simp [hno]
    simp only [downloadFile, hcheck]
    rfl

/-- Witness for C1 (amended) at the fixture worlds: a dead ledger, a file
owned by `owner1`, a requester `reader2` with one linked wallet whose
access check fails. -/
theorem resolution_failure_soft_witness :
    (emptyCache (jsToLower "0xaaaa") = none ∧
      ledgerDownEnv.blockNumberResult = Except.error "getBlockNumber timeout" ∧
      gateLedgerDownEnv.firestoreAvailable = true ∧
      gateLedgerDownEnv.fileDocError = false ∧
      gateLedgerDownEnv.fileDocOf "1731_test.bin" = some ⟨"0xh1", "owner1"⟩ ∧
      gateLedgerDownEnv.userDocError = false ∧
      "reader2" ≠ "owner1" ∧
      (∀ a ∈ gateLedgerDownEnv.walletAddressesOf "reader2",
        (gateLedgerDownEnv.hasFileAccessResult "0xh1" a).toOption = none)) ∧
    (getAccessibleFileHashes ledgerDownEnv emptyCache 0 "0xaaaa"
        = ⟨Except.ok [], emptyCache, 1, 0⟩ ∧
      downloadFile gateLedgerDownEnv (some "reader2") (some "1731_test.bin")
        = GateResponse.denied) :=
  ⟨⟨rfl, rfl, rfl, rfl, rfl, rfl, by decide, fun a _ => rfl⟩,
    resolution_failure_soft_and_gate_denies ledgerDownEnv emptyCache 0 "0xaaaa"
      "getBlockNumber timeout" gateLedgerDownEnv "reader2" "1731_test.bin"
      ⟨"0xh1", "owner1"⟩ rfl rfl rfl rfl rfl rfl (by decide) (fun a _ => rfl)⟩

/-- C10: the decrypt endpoint is a pure function of the s3 key and the
three base64 cipher parameters: the principal identity attached to the
request plays no role at all, so two requesters with different identities
(or none) and identical parameters receive the same bytes. -/
theorem decrypt_endpoint_ignores_principal (P : GcmPrimitives) (env : DecryptEnv)
    (u1 u2 : Option String) (body : DecryptBody) :
    downloadAndDecrypt P env ⟨u1, body⟩ = downloadAndDecrypt P env ⟨u2, body⟩ ∧
    downloadAndDecrypt P env ⟨u1, body⟩ = downloadAndDecrypt P env ⟨none, body⟩ :=
  ⟨rfl, rfl⟩

end NexVault
